import Mathlib

/-!
Verification model of the `task_frontend` leaderboard client.

The React component in `src/App.jsx` keeps seven pieces of state
(`users`, `selectedUserId`, `newUserName`, `message`, `loading`, `error`,
`claimHistory`) and exposes three operations that matter here:
`handleAddUser`, `handleClaimPoints` and the socket `leaderboard_update`
handler.  Network calls are modelled by passing the outcome of the single
HTTP request the handler may issue as an explicit argument; the boolean in
each handler's result records whether that request was issued at all.

The backend leaderboard engine (ranking table, claim ledger) is not part of
the reviewed source; where a claim is about it, the definitions are modelled
from the specification and say so in their doc comments.
-/

/-- Whitespace characters recognised by JavaScript `String.prototype.trim`
(the subset relevant to text typed in an input field). -/
def isJsWhitespace (c : Char) : Bool :=
  c == ' ' || c == '\t' || c == '\n' || c == '\r' || c == '\u000B' || c == '\u000C'

/-- JavaScript `String.prototype.trim` on a list of characters: drop
whitespace from both ends. -/
def jsTrim (s : List Char) : List Char :=
  ((s.dropWhile isJsWhitespace).reverse.dropWhile isJsWhitespace).reverse

/-- JavaScript `a || b` for an optionally-present server message string:
`undefined` and the empty string are both falsy. -/
def orDefault (m : Option String) (d : String) : String :=
  match m with
  | some msg => if msg = "" then d else msg
  | none => d

/-- A leaderboard entry as delivered by the backend: `_id`, `username`,
`totalPoints`.  No rank field exists on the record. -/
structure User where
  _id : String
  username : List Char
  totalPoints : Int
  deriving DecidableEq

/-- The populated participant reference inside a claim-history record
(`claim.userId` after Mongoose populate); may be absent. -/
structure HistUser where
  username : List Char
  deriving DecidableEq

/-- A claim-history record as rendered by the client: `_id`, optional
`userId` reference, `pointsClaimed`, optional `timestamp`. -/
structure HistClaim where
  _id : String
  userId : Option HistUser
  pointsClaimed : Int
  timestamp : Option String
  deriving DecidableEq

/-- The React component state of `App`. -/
structure AppState where
  users : List User
  selectedUserId : String
  newUserName : List Char
  message : String
  loading : Bool
  error : String
  claimHistory : List HistClaim
  deriving DecidableEq

/-- Outcome of the `POST /users` request issued by `handleAddUser`. -/
inductive AddUserNet where
  | success (username : List Char)
  | failure (serverMessage : Option String)
  deriving DecidableEq

/-- The success message template of `handleAddUser`. -/
def addedMessage (uname : List Char) : String :=
  String.mk ("Added \"".data ++ uname ++ "\"!".data)

/-- `handleAddUser` from `src/App.jsx` (lines 69-87).  If the typed name is
empty after trimming, set the error and return without issuing the request;
otherwise issue `POST /users` and fold the response into the state.  The
boolean records whether the request was issued. -/
def handleAddUser (s : AppState) (net : AddUserNet) : AppState × Bool :=
  if jsTrim s.newUserName = [] then
    ({ s with error := "User name cannot be empty." }, false)
  else
    match net with
    | AddUserNet.success uname =>
        ({ s with loading := false, error := "",
                  message := addedMessage uname, newUserName := [] }, true)
    | AddUserNet.failure m =>
        ({ s with loading := false,
                  error := orDefault m "Failed to add user." }, true)

/-- A list of characters that is all whitespace trims to the empty list. -/
theorem jsTrim_eq_nil_of_all (l : List Char)
    (h : l.all isJsWhitespace = true) : jsTrim l = [] := by
  have hd : l.dropWhile isJsWhitespace = [] := by
    rw [List.dropWhile_eq_nil_iff]
    intro x hx
    exact List.all_eq_true.mp h x hx
  simp [jsTrim, hd]

/-- Concrete component state used to witness C1: the typed name is a single
space. -/
def c1State : AppState :=
  { users := [], selectedUserId := "", newUserName := " ".data,
    message := "", loading := false, error := "", claimHistory := [] }

/-- C1: whenever the typed participant name is empty or all whitespace,
`handleAddUser` sets the validation error message, issues no request, and
leaves the participant list, the claim history and the typed name
unchanged. -/
theorem handleAddUser_blank_name_no_mutation (s : AppState) (net : AddUserNet)
    (h : s.newUserName.all isJsWhitespace = true) :
    (handleAddUser s net).2 = false ∧
    (handleAddUser s net).1.users = s.users ∧
    (handleAddUser s net).1.claimHistory = s.claimHistory ∧
    (handleAddUser s net).1.newUserName = s.newUserName ∧
    (handleAddUser s net).1.error = "User name cannot be empty." := by
  have ht := jsTrim_eq_nil_of_all s.newUserName h
  simp [handleAddUser, ht]

/-- Witness for C1 at a concrete state whose typed name is a single space. -/
theorem handleAddUser_blank_name_no_mutation_witness :
    (c1State.newUserName.all isJsWhitespace = true) ∧
    ((handleAddUser c1State (AddUserNet.failure none)).2 = false ∧
     (handleAddUser c1State (AddUserNet.failure none)).1.users = c1State.users ∧
     (handleAddUser c1State (AddUserNet.failure none)).1.claimHistory
       = c1State.claimHistory ∧
     (handleAddUser c1State (AddUserNet.failure none)).1.newUserName
       = c1State.newUserName ∧
     (handleAddUser c1State (AddUserNet.failure none)).1.error
       = "User name cannot be empty.") :=
  ⟨by decide,
   handleAddUser_blank_name_no_mutation c1State (AddUserNet.failure none)
     (by decide)⟩

/-- Outcome of the `POST /claims` request issued by `handleClaimPoints`.  On
success the handler also refetches the claim history; `fetchedHistory = none`
models that refetch itself failing (history left as it was). -/
inductive ClaimNet where
  | success (message : String) (fetchedHistory : Option (List HistClaim))
  | failure (serverMessage : Option String)
  deriving DecidableEq

/-- `handleClaimPoints` from `src/App.jsx` (lines 89-107).  Only an empty
`selectedUserId` is caught locally; any non-empty identifier is sent to the
server.  The boolean records whether the request was issued. -/
def handleClaimPoints (s : AppState) (net : ClaimNet) : AppState × Bool :=
  if s.selectedUserId = "" then
    ({ s with error := "Please select a user." }, false)
  else
    match net with
    | ClaimNet.success msg fetched =>
        ({ s with loading := false, error := "", message := msg,
                  claimHistory := fetched.getD s.claimHistory }, true)
    | ClaimNet.failure m =>
        ({ s with loading := false,
                  error := orDefault m "Failed to claim points." }, true)

/-- The selected identifier is that of an existing participant. -/
def validSelection (s : AppState) : Bool :=
  s.selectedUserId != "" && s.users.any (fun u => u._id == s.selectedUserId)

/-- Concrete state refuting C2 as stated: a non-empty identifier that
matches no participant is selected. -/
def c2BadState : AppState :=
  { users := [], selectedUserId := "ghost-id", newUserName := [],
    message := "", loading := false, error := "", claimHistory := [] }

/-- C2 counterexample: with a non-empty but unknown identifier selected, no
valid participant identifier is selected, yet `handleClaimPoints` does issue
the claim request, contradicting the claim that none is issued. -/
theorem handleClaimPoints_unknown_id_issues_request :
    validSelection c2BadState = false ∧
    (handleClaimPoints c2BadState (ClaimNet.failure (some "User not found."))).2
      = true := by
  decide

/-- C2 (amended): whenever the selected identifier is empty,
`handleClaimPoints` surfaces the selection error, issues no request, and
leaves the users list, the claim history and the selected identifier
unchanged. -/
theorem handleClaimPoints_empty_selection_no_mutation (s : AppState)
    (net : ClaimNet) (h : s.selectedUserId = "") :
    (handleClaimPoints s net).2 = false ∧
    (handleClaimPoints s net).1.users = s.users ∧
    (handleClaimPoints s net).1.claimHistory = s.claimHistory ∧
    (handleClaimPoints s net).1.selectedUserId = s.selectedUserId ∧
    (handleClaimPoints s net).1.error = "Please select a user." := by
  simp [handleClaimPoints, h]

/-- Concrete component state used to witness the amended C2: nothing is
selected. -/
def c2EmptyState : AppState :=
  { users := [{ _id := "a1", username := "Ann".data, totalPoints := 5 }],
    selectedUserId := "", newUserName := [], message := "",
    loading := false, error := "", claimHistory := [] }

/-- Witness for the amended C2 at a concrete state with empty selection. -/
theorem handleClaimPoints_empty_selection_no_mutation_witness :
    (c2EmptyState.selectedUserId = "") ∧
    ((handleClaimPoints c2EmptyState (ClaimNet.failure none)).2 = false ∧
     (handleClaimPoints c2EmptyState (ClaimNet.failure none)).1.users
       = c2EmptyState.users ∧
     (handleClaimPoints c2EmptyState (ClaimNet.failure none)).1.claimHistory
       = c2EmptyState.claimHistory ∧
     (handleClaimPoints c2EmptyState (ClaimNet.failure none)).1.selectedUserId
       = c2EmptyState.selectedUserId ∧
     (handleClaimPoints c2EmptyState (ClaimNet.failure none)).1.error
       = "Please select a user.") :=
  ⟨rfl,
   handleClaimPoints_empty_selection_no_mutation c2EmptyState
     (ClaimNet.failure none) rfl⟩

/-- The socket `leaderboard_update` handler (lines 33-37 of `src/App.jsx`):
the whole users list is replaced by the pushed snapshot and a flash message
is set.  Nothing of the previous users list survives. -/
def onLeaderboardUpdate (s : AppState) (updatedUsers : List User) : AppState :=
  { s with users := updatedUsers, message := "Leaderboard updated!" }

/-- C3: after a push event the participant view equals the snapshot carried
by the event, and is therefore independent of the view held before it: two
arbitrary prior states receiving the same event show the same users. -/
theorem onLeaderboardUpdate_full_replacement (s₁ s₂ : AppState)
    (updatedUsers : List User) :
    (onLeaderboardUpdate s₁ updatedUsers).users = updatedUsers ∧
    (onLeaderboardUpdate s₁ updatedUsers).users
      = (onLeaderboardUpdate s₂ updatedUsers).users :=
  ⟨rfl, rfl⟩

/-- `users.slice(0, 3)` (line 109 of `src/App.jsx`): the podium entries. -/
def topThree (users : List User) : List User := users.take 3

/-- `users.slice(3)` (line 110 of `src/App.jsx`): the remaining entries. -/
def restUsers (users : List User) : List User := users.drop 3

/-- The rank displayed for a user (lines 164 and 198 of `src/App.jsx`):
`users.indexOf(user) + 1`, recomputed from the current list at render time.
No rank is read from the `User` record, which has no rank field. -/
def renderedRank (users : List User) (u : User) : Nat :=
  users.indexOf u + 1

/-- First leaderboard entry of the concrete two-user list. -/
def c4User0 : User := { _id := "a1", username := "Ann".data, totalPoints := 30 }

/-- Second leaderboard entry of the concrete two-user list. -/
def c4User1 : User := { _id := "b2", username := "Bob".data, totalPoints := 20 }

/-- A concrete two-user leaderboard list. -/
def c4Users : List User := [c4User0, c4User1]

/-- C4: for a duplicate-free users list, the rank displayed for the entry at
index `i` is exactly its 1-based position `i + 1` in that list. -/
theorem renderedRank_eq_position (users : List User) (h : users.Nodup)
    (i : Nat) (hi : i < users.length) :
    renderedRank users users[i] = i + 1 := by
  unfold renderedRank
  rw [List.indexOf_getElem h i hi]

/-- Witness for C4 on the concrete two-user list at index 1. -/
theorem renderedRank_eq_position_witness :
    c4Users.Nodup ∧ 1 < c4Users.length ∧
    renderedRank c4Users c4Users[1] = 1 + 1 :=
  ⟨by decide, by decide,
   renderedRank_eq_position c4Users (by decide) 1 (by decide)⟩

/-- C9: the podium and the remaining list partition the users exactly: their
concatenation is the original list, the podium holds the first
`min 3 length` entries, and the remaining section shows entry `3 + i` of the
original list at its position `i`. -/
theorem topThree_restUsers_partition (users : List User) :
    topThree users ++ restUsers users = users ∧
    (topThree users).length = min 3 users.length ∧
    (∀ i : Nat, (restUsers users)[i]? = users[3 + i]?) := by
  refine ⟨List.take_append_drop 3 users, ?_, ?_⟩
  · simp [topThree]
  · intro i
    simp [restUsers, List.getElem?_drop]

/-- The avatar initial `user.username[0].toUpperCase()` (lines 182 and 212
of `src/App.jsx`): indexing position 0 of the name, then upper-casing.  On
an empty name the indexing yields nothing (a TypeError in JavaScript). -/
def avatarInitial (name : List Char) : Option Char :=
  name.head?.map Char.toUpper

/-- C8: if every display name on the leaderboard is non-empty, computing the
avatar initial succeeds for every entry shown on the podium or in the
remaining list. -/
theorem avatarInitial_total (users : List User)
    (h : ∀ u ∈ users, u.username ≠ []) :
    ∀ u : User, (u ∈ topThree users ∨ u ∈ restUsers users) →
      (avatarInitial u.username).isSome = true := by
  intro u hu
  have hmem : u ∈ users := by
    cases hu with
    | inl h1 => exact List.take_subset 3 users h1
    | inr h2 => exact List.drop_subset 3 users h2
  have hne := h u hmem
  cases hx : u.username with
  | nil => exact absurd hx hne
  | cons c cs => simp [avatarInitial, hx]

/-- Witness for C8 on the concrete two-user list, at its first (podium)
entry. -/
theorem avatarInitial_total_witness :
    (∀ u ∈ c4Users, u.username ≠ []) ∧
    (avatarInitial c4User0.username).isSome = true :=
  ⟨by decide,
   avatarInitial_total c4Users (by decide) c4User0 (Or.inl (by decide))⟩

/-- One rendered row of the Recent Claims section. -/
structure HistRow where
  name : List Char
  points : Int
  time : String
  deriving DecidableEq

/-- The rendered Recent Claims section: either the empty-state note or one
row per record. -/
inductive HistorySection where
  | emptyNote (msg : String)
  | rows (rs : List HistRow)
  deriving DecidableEq

/-- Render one history record (lines 233-256 of `src/App.jsx`):
`claim.userId?.username || "Unknown User"` for the name (an absent reference
or an empty username both fall back), the points badge, and
`claim.timestamp ? format(...) : "N/A"` for the time.  `fmt` stands for the
external date-fns formatter. -/
def renderClaimRow (fmt : String → String) (c : HistClaim) : HistRow :=
  { name :=
      match c.userId with
      | some u => if u.username = [] then "Unknown User".data else u.username
      | none => "Unknown User".data,
    points := c.pointsClaimed,
    time :=
      match c.timestamp with
      | some ts => fmt ts
      | none => "N/A" }

/-- Render the Recent Claims section (lines 229-258 of `src/App.jsx`). -/
def renderHistory (fmt : String → String) (history : List HistClaim) :
    HistorySection :=
  if history = [] then HistorySection.emptyNote "No claims recorded yet."
  else HistorySection.rows (history.map (renderClaimRow fmt))

/-- C10: history rendering is total with explicit fallbacks: an empty
history renders the empty-state note and no rows; a non-empty history
renders one row per record; a record with no participant reference renders
the name Unknown User; a record with no timestamp renders N/A. -/
theorem renderHistory_total_fallbacks (fmt : String → String)
    (history : List HistClaim) :
    (history = [] →
      renderHistory fmt history
        = HistorySection.emptyNote "No claims recorded yet.") ∧
    (history ≠ [] →
      renderHistory fmt history
        = HistorySection.rows (history.map (renderClaimRow fmt))) ∧
    (∀ c : HistClaim, c.userId = none →
      (renderClaimRow fmt c).name = "Unknown User".data) ∧
    (∀ c : HistClaim, c.timestamp = none →
      (renderClaimRow fmt c).time = "N/A") := by
  refine ⟨?_, ?_, ?_, ?_⟩
  · intro h; simp [renderHistory, h]
  · intro h; simp [renderHistory, h]
  · intro c h; simp [renderClaimRow, h]
  · intro c h; simp [renderClaimRow, h]

/-- A concrete history record missing both its participant reference and
its timestamp. -/
def c10Claim : HistClaim :=
  { _id := "c1", userId := none, pointsClaimed := 7, timestamp := none }

/-- Witness for C10: the empty history renders the note, and the degenerate
record renders both fallbacks. -/
theorem renderHistory_total_fallbacks_witness :
    (renderHistory id [] = HistorySection.emptyNote "No claims recorded yet.") ∧
    ((renderClaimRow id c10Claim).name = "Unknown User".data) ∧
    ((renderClaimRow id c10Claim).time = "N/A") :=
  ⟨(renderHistory_total_fallbacks id []).1 rfl,
   (renderHistory_total_fallbacks id []).2.2.1 c10Claim rfl,
   (renderHistory_total_fallbacks id []).2.2.2 c10Claim rfl⟩

/-- Modelled from the spec: a participant row of the backend Ranking Table
(the backend engine is not part of the reviewed source).  `regOrder` is the
registration order, the stable secondary sort key; `points` the total. -/
structure Participant where
  pid : Nat
  regOrder : Nat
  points : Nat
  deriving DecidableEq

/-- Modelled from the spec: the non-strict snapshot ordering, total points
descending with ties broken by earliest registration order. -/
def rankLE (a b : Participant) : Prop :=
  b.points < a.points ∨ (a.points = b.points ∧ a.regOrder ≤ b.regOrder)

/-- Modelled from the spec: the strict snapshot ordering (points descending,
registration order strictly ascending on ties). -/
def rankLT (a b : Participant) : Prop :=
  b.points < a.points ∨ (a.points = b.points ∧ a.regOrder < b.regOrder)

instance : DecidableRel rankLE := fun a b => by
  unfold rankLE
  exact inferInstance

instance : IsTotal Participant rankLE :=
  ⟨by intro a b; unfold rankLE; omega⟩

instance : IsTrans Participant rankLE :=
  ⟨by intro a b c; unfold rankLE; omega⟩

/-- Modelled from the spec: `getSnapshot` of the Ranking Table sorts the
participant table by the snapshot ordering (a stable sort). -/
def getSnapshot (table : List Participant) : List Participant :=
  List.insertionSort rankLE table

/-- A concrete three-participant table with one points tie. -/
def c5Table : List Participant :=
  [{ pid := 0, regOrder := 0, points := 10 },
   { pid := 1, regOrder := 1, points := 20 },
   { pid := 2, regOrder := 2, points := 10 }]

/-- C5: when registration orders are pairwise distinct, every snapshot is a
permutation of the table sorted by (points descending, registration order
ascending), and that ordering is strict on it: consecutive-or-later entries
are always strictly below in the order, so no two distinct entries compare
equal. -/
theorem getSnapshot_strict_total_order (table : List Participant)
    (h : (table.map Participant.regOrder).Nodup) :
    (getSnapshot table).Sorted rankLE ∧
    (getSnapshot table).Pairwise rankLT ∧
    List.Perm (getSnapshot table) table := by
  have hperm : List.Perm (getSnapshot table) table := List.perm_insertionSort rankLE table
  have hsorted : (getSnapshot table).Sorted rankLE :=
    List.sorted_insertionSort rankLE table
  have hnodup : ((getSnapshot table).map Participant.regOrder).Nodup :=
    ((hperm.map Participant.regOrder).nodup_iff).mpr h
  have hne : (getSnapshot table).Pairwise
      (fun a b => a.regOrder ≠ b.regOrder) := by
    rw [List.Nodup, List.pairwise_map] at hnodup
    exact hnodup
  have hlt : (getSnapshot table).Pairwise rankLT := by
    refine (List.Pairwise.and hsorted hne).imp ?_
    intro a b hab
    rcases hab with ⟨hle, hneq⟩
    unfold rankLE at hle
    unfold rankLT
    omega
  exact ⟨hsorted, hlt, hperm⟩

/-- Witness for C5 on the concrete table with a points tie. -/
theorem getSnapshot_strict_total_order_witness :
    (c5Table.map Participant.regOrder).Nodup ∧
    ((getSnapshot c5Table).Sorted rankLE ∧
     (getSnapshot c5Table).Pairwise rankLT ∧
     List.Perm (getSnapshot c5Table) c5Table) :=
  ⟨by decide, getSnapshot_strict_total_order c5Table (by decide)⟩

/-- Modelled from the spec: a committed record of the backend Claim Ledger,
keyed by its strictly increasing sequence number. -/
structure ClaimRecord where
  seq : Nat
  participantId : String
  points : Nat
  deriving DecidableEq

/-- Modelled from the spec: `history(limit, before?)` over a ledger stored
oldest-first.  Keep the records whose sequence number lies before the
cursor (when one is given), return them newest-first, truncated to
`limit`. -/
def historyOp (ledger : List ClaimRecord) (limit : Nat)
    (before : Option Nat) : List ClaimRecord :=
  ((match before with
    | none => ledger
    | some cursor => ledger.filter (fun r => r.seq < cursor)).reverse).take limit

/-- The ledger after claim(A, 10) then claim(B, 20). -/
def c6RecA : ClaimRecord := { seq := 1, participantId := "A", points := 10 }

/-- The second committed record of the two-claim scenario. -/
def c6RecB : ClaimRecord := { seq := 2, participantId := "B", points := 20 }

/-- The two-claim scenario ledger, oldest-first. -/
def c6Ledger : List ClaimRecord := [c6RecA, c6RecB]

/-- C6: on a ledger with strictly increasing sequence numbers, `history`
returns records newest-first (strictly descending sequence numbers), every
returned record lies before the cursor when one is given, and in the
two-claim scenario `listHistory(2)` returns [claim(B,20), claim(A,10)]. -/
theorem historyOp_newest_first (ledger : List ClaimRecord) (limit : Nat)
    (before : Option Nat)
    (h : ledger.Pairwise (fun a b => a.seq < b.seq)) :
    (historyOp ledger limit before).Pairwise (fun a b => b.seq < a.seq) ∧
    (∀ cursor : Nat, before = some cursor →
      ∀ r ∈ historyOp ledger limit before, r.seq < cursor) ∧
    historyOp c6Ledger 2 none = [c6RecB, c6RecA] := by
  refine ⟨?_, ?_, by decide⟩
  · cases before with
    | none =>
        exact List.Pairwise.sublist (List.take_sublist limit _)
          (List.pairwise_reverse.mpr h)
    | some cursor =>
        exact List.Pairwise.sublist (List.take_sublist limit _)
          (List.pairwise_reverse.mpr
            (h.filter (fun r => decide (r.seq < cursor))))
  · intro cursor hb r hr
    subst hb
    have hr1 := List.take_subset limit _ hr
    rw [List.mem_reverse] at hr1
    have hr2 := List.mem_filter.mp hr1
    exact of_decide_eq_true hr2.2

/-- Witness for C6 on the two-claim ledger with limit 2 and no cursor. -/
theorem historyOp_newest_first_witness :
    c6Ledger.Pairwise (fun a b => a.seq < b.seq) ∧
    (historyOp c6Ledger 2 none).Pairwise (fun a b => b.seq < a.seq) ∧
    historyOp c6Ledger 2 none = [c6RecB, c6RecA] :=
  ⟨by decide,
   (historyOp_newest_first c6Ledger 2 none (by decide)).1,
   (historyOp_newest_first c6Ledger 2 none (by decide)).2.2⟩

/-- Modelled from the spec: a record with this sequence number is already in
the cached ledger. -/
def hasSeq (ledger : List ClaimRecord) (n : Nat) : Bool :=
  ledger.any (fun x => x.seq == n)

/-- Modelled from the spec: fold one externally pushed record into the
cached ledger, skipping it when its sequence number is already present. -/
def insertRecord (ledger : List ClaimRecord) (r : ClaimRecord) :
    List ClaimRecord :=
  if hasSeq ledger r.seq then ledger else ledger ++ [r]

/-- Modelled from the spec: `mergeRemote(records)` reconciles a pushed batch
with the locally cached ledger, deduplicating by sequence number. -/
def mergeRemote (ledger batch : List ClaimRecord) : List ClaimRecord :=
  batch.foldl insertRecord ledger

/-- Inserting never removes a sequence number already present. -/
theorem hasSeq_insertRecord_of_hasSeq (ledger : List ClaimRecord)
    (r : ClaimRecord) (n : Nat) (h : hasSeq ledger n = true) :
    hasSeq (insertRecord ledger r) n = true := by
  unfold insertRecord
  split
  · exact h
  · simp only [hasSeq, List.any_append] at *
    simp [h]

/-- After inserting a record its sequence number is present. -/
theorem hasSeq_insertRecord_self (ledger : List ClaimRecord)
    (r : ClaimRecord) : hasSeq (insertRecord ledger r) r.seq = true := by
  unfold insertRecord
  split
  · assumption
  · simp [hasSeq, List.any_append]

/-- Merging never removes a sequence number already present. -/
theorem hasSeq_mergeRemote_of_hasSeq (batch : List ClaimRecord) :
    ∀ ledger n, hasSeq ledger n = true →
      hasSeq (mergeRemote ledger batch) n = true := by
  induction batch with
  | nil => intro ledger n h; exact h
  | cons b bs ih =>
      intro ledger n h
      exact ih (insertRecord ledger b) n (hasSeq_insertRecord_of_hasSeq _ b n h)

/-- After a merge, every batch record's sequence number is present. -/
theorem hasSeq_mergeRemote_of_mem (batch : List ClaimRecord) :
    ∀ ledger, ∀ r ∈ batch, hasSeq (mergeRemote ledger batch) r.seq = true := by
  induction batch with
  | nil => intro ledger r hr; cases hr
  | cons b bs ih =>
      intro ledger r hr
      cases hr with
      | head =>
          exact hasSeq_mergeRemote_of_hasSeq bs (insertRecord ledger b) b.seq
            (hasSeq_insertRecord_self ledger b)
      | tail _ hmem => exact ih (insertRecord ledger b) r hmem

/-- Inserting a record whose sequence number is present does nothing. -/
theorem insertRecord_no_op (ledger : List ClaimRecord) (r : ClaimRecord)
    (h : hasSeq ledger r.seq = true) : insertRecord ledger r = ledger := by
  unfold insertRecord
  simp [h]

/-- Merging a batch whose sequence numbers are all present does nothing. -/
theorem mergeRemote_no_op (batch : List ClaimRecord) :
    ∀ ledger, (∀ r ∈ batch, hasSeq ledger r.seq = true) →
      mergeRemote ledger batch = ledger := by
  induction batch with
  | nil => intro ledger _; rfl
  | cons b bs ih =>
      intro ledger h
      have hb : insertRecord ledger b = ledger :=
        insertRecord_no_op ledger b (h b (List.mem_cons_self b bs))
      have : mergeRemote ledger (b :: bs) = mergeRemote (insertRecord ledger b) bs := rfl
      rw [this, hb]
      exact ih ledger (fun r hr => h r (List.mem_cons_of_mem b hr))

/-- Inserting preserves duplicate-freedom of the sequence numbers. -/
theorem insertRecord_nodup (ledger : List ClaimRecord) (r : ClaimRecord)
    (h : (ledger.map ClaimRecord.seq).Nodup) :
    ((insertRecord ledger r).map ClaimRecord.seq).Nodup := by
  unfold insertRecord
  split
  · exact h
  · rename_i hfalse
    rw [List.map_append, List.map_cons, List.map_nil]
    rw [(List.perm_append_singleton _ _).nodup_iff]
    rw [List.nodup_cons]
    refine ⟨?_, h⟩
    intro hmem
    rcases List.mem_map.mp hmem with ⟨x, hx, hxeq⟩
    have : hasSeq ledger r.seq = true := by
      simp only [hasSeq, List.any_eq_true]
      exact ⟨x, hx, by simp [hxeq]⟩
    simp [this] at hfalse

/-- Merging preserves duplicate-freedom of the sequence numbers. -/
theorem mergeRemote_nodup (batch : List ClaimRecord) :
    ∀ ledger, (ledger.map ClaimRecord.seq).Nodup →
      ((mergeRemote ledger batch).map ClaimRecord.seq).Nodup := by
  induction batch with
  | nil => intro ledger h; exact h
  | cons b bs ih =>
      intro ledger h
      exact ih (insertRecord ledger b) (insertRecord_nodup ledger b h)

/-- C7: `mergeRemote` is idempotent on overlapping batches (a second
application of the same batch changes nothing) and deduplicates by sequence
number (a duplicate-free cached ledger stays duplicate-free). -/
theorem mergeRemote_idempotent_dedup (ledger batch : List ClaimRecord) :
    mergeRemote (mergeRemote ledger batch) batch = mergeRemote ledger batch ∧
    ((ledger.map ClaimRecord.seq).Nodup →
      ((mergeRemote ledger batch).map ClaimRecord.seq).Nodup) := by
  constructor
  · exact mergeRemote_no_op batch (mergeRemote ledger batch)
      (fun r hr => hasSeq_mergeRemote_of_mem batch ledger r hr)
  · exact mergeRemote_nodup batch ledger

/-- A cached one-record ledger. -/
def c7RecA : ClaimRecord := { seq := 1, participantId := "a1", points := 10 }

/-- A record pushed on the real-time channel. -/
def c7RecB : ClaimRecord := { seq := 2, participantId := "b2", points := 20 }

/-- Witness for C7: merging the overlapping batch [A, B] into the cached
ledger [A] twice equals merging it once, and the result is duplicate-free. -/
theorem mergeRemote_idempotent_dedup_witness :
    (([c7RecA].map ClaimRecord.seq).Nodup) ∧
    (mergeRemote (mergeRemote [c7RecA] [c7RecA, c7RecB]) [c7RecA, c7RecB]
       = mergeRemote [c7RecA] [c7RecA, c7RecB]) ∧
    ((mergeRemote [c7RecA] [c7RecA, c7RecB]).map ClaimRecord.seq).Nodup :=
  ⟨by decide,
   (mergeRemote_idempotent_dedup [c7RecA] [c7RecA, c7RecB]).1,
   (mergeRemote_idempotent_dedup [c7RecA] [c7RecA, c7RecB]).2 (by decide)⟩
